import Mathlib

/-!
Shallow embedding of the Notepad# tab/editor state-synchronization engine and
remote-execution orchestration (TypeScript sources under `src/`): the
`TabManager` document store, the `EditorManager` state synchronizer, and the
`PistonService` execution client.  Machine numbers are modelled as `Nat`/`Int`;
JavaScript string truthiness (`x || y`) is modelled explicitly; the fallible
collaborators (file dialogs, file writes, network) are modelled by passing
their outcome in as a parameter.
-/

namespace NotepadSharp

/-- JavaScript `a || b` on strings: `a` when non-empty, else `b`. -/
def jsOr (a b : String) : String := if a ≠ "" then a else b

/-- JavaScript `s.endsWith("\n")`: the last character is a newline. -/
def endsWithNewline (s : String) : Bool := s.data.getLast? == some '\n'

/-- JavaScript `String.prototype.split` with a single-character class:
splitting an empty string yields one empty piece, like JS. -/
def splitChars (sep : Char → Bool) : List Char → List (List Char)
  | [] => [[]]
  | c :: cs =>
      match splitChars sep cs with
      | [] => [[]]
      | g :: gs => if sep c then [] :: g :: gs else (c :: g) :: gs

/-- JavaScript `s.toLowerCase()` (ASCII letters, which is all the repo
compares). -/
def jsToLower (s : String) : String := ⟨s.data.map Char.toLower⟩

/-- JavaScript `s.trim()`: strip leading and trailing whitespace. -/
def jsTrim (s : String) : String :=
  ⟨((s.data.dropWhile Char.isWhitespace).reverse.dropWhile Char.isWhitespace).reverse⟩

/-! ## Data model (`src/types/index.ts`) -/

/-- `interface Tab` from `src/types/index.ts`, together with the two
view-state fields `cursorPosition`/`scrollTop` that `EditorManager`
reads (`restoreEditorState`) and writes (via `updateTabEditorState`);
they are `Option` because the TS code tests them against `undefined`. -/
structure Tab where
  id : Nat
  name : String
  path : Option String
  content : String
  savedContent : String
  modified : Bool
  cursorPosition : Option Nat := none
  scrollTop : Option Nat := none
deriving Repr, DecidableEq, Inhabited

/-- The private state of `TabManager` (`src/managers/TabManager.ts`). -/
structure TabManagerState where
  tabs : List Tab
  activeTabId : Option Nat
  nextTabId : Nat
deriving Repr, DecidableEq, Inhabited

/-- Output display categories (`type OutputType` in `src/types/index.ts`). -/
inductive OutputType
  | running
  | success
  | error
deriving Repr, DecidableEq

/-! ## Execution wire protocol (`src/types/index.ts`) -/

structure PistonFile where
  content : String
  name : Option String
deriving Repr, DecidableEq

structure PistonExecuteRequest where
  language : String
  version : String
  files : List PistonFile
  stdin : Option String
  compile_timeout : Option Nat
  run_timeout : Option Nat
deriving Repr, DecidableEq

structure CompileResult where
  stdout : String
  stderr : String
  code : Int
  output : String
deriving Repr, DecidableEq

structure RunResult where
  stdout : String
  stderr : String
  code : Option Int
  signal : Option String
  output : String
deriving Repr, DecidableEq

structure PistonExecuteResponse where
  language : String
  version : String
  compile : Option CompileResult
  run : RunResult
deriving Repr, DecidableEq

/-! ## PistonService (`src/services/PistonService.ts`) -/

namespace PistonService

/-- The stdin normalisation at the top of `executeCode`:
`stdin ? (stdin.endsWith("\n") ? stdin : stdin + "\n") : ""`. -/
def formattedStdin (stdin : String) : String :=
  if stdin ≠ "" then
    (if endsWithNewline stdin then stdin else stdin ++ "\n")
  else ""

/-- The request object built by `executeCode` (lines 12–27) before the
network call; `stdin: formattedStdin || undefined` omits an empty stdin. -/
def buildPayload (language code stdin : String) : PistonExecuteRequest :=
  let fs := formattedStdin stdin
  let isCSharp := language = "csharp"
  { language := language
    version := "*"
    files := [{ name := some "Program.cs", content := code }]
    stdin := if fs ≠ "" then some fs else none
    compile_timeout := some 20000
    run_timeout := some (if isCSharp then 20000 else 5000) }

/-- The shared run-stage classification (branches (c)/(d) of
`formatOutput`): success when `run.code === 0 || run.code === null`,
otherwise a runtime error labelled with the exit code. -/
def runStageOutput (run : RunResult) : String × OutputType :=
  match run.code with
  | none =>
      (jsOr run.stdout (jsOr run.output "✓ Program executed successfully (No output)"),
       OutputType.success)
  | some n =>
      if n = 0 then
        (jsOr run.stdout (jsOr run.output "✓ Program executed successfully (No output)"),
         OutputType.success)
      else
        ("Runtime Error (Exit Code: " ++ toString n ++ ")\n\n"
           ++ (if run.stderr ≠ "" then run.stderr else "")
           ++ (if run.stdout ≠ "" then "\nOutput:\n" ++ run.stdout else ""),
         OutputType.error)

/-- `PistonService.formatOutput` (lines 44–73): SIGKILL beats a failed
compile stage beats the run-stage classification. -/
def formatOutput (result : PistonExecuteResponse) : String × OutputType :=
  if result.run.signal = some "SIGKILL" then
    ("Program terminated (timeout or waiting for input)\n"
       ++ (if result.run.stdout ≠ "" then "\nOutput:\n" ++ result.run.stdout else ""),
     OutputType.error)
  else
    match result.compile with
    | some c =>
        if c.code ≠ 0 then
          ("Compilation Failed\n\n" ++ jsOr c.stderr (jsOr c.output ""), OutputType.error)
        else runStageOutput result.run
    | none => runStageOutput result.run

end PistonService

/-! ## Helpers (`src/utils/helpers.ts`, `src/utils/languageDetector.ts`,
`src/constants/index.ts`) -/

/-- `extractFileName`: `path.split(/[/\\]/).pop() || EDITOR_CONFIG.defaultFileName`. -/
def extractFileName (path : String) : String :=
  jsOr ⟨(splitChars (fun c => c = '/' || c = '\\') path.data).getLastD []⟩ "Untitled"

/-- Drops a literal character-list prefix, returning the rest on a match. -/
def dropLit : List Char → List Char → Option (List Char)
  | [], cs => some cs
  | _ :: _, [] => none
  | p :: ps, c :: cs => if c = p then dropLit ps cs else none

/-- Whether the regex `Console\.ReadLine\s*\(` matches at the head of `cs`
(`\s` modelled by `Char.isWhitespace`). -/
def readLineMatchesAt (cs : List Char) : Bool :=
  match dropLit "Console.ReadLine".toList cs with
  | none => false
  | some rest => (rest.dropWhile Char.isWhitespace).head? == some '('

def expectsInputChars : List Char → Bool
  | [] => false
  | c :: cs => readLineMatchesAt (c :: cs) || expectsInputChars cs

/-- `expectsInput` (`src/utils/helpers.ts`): tests
`/Console\.ReadLine\s*\(/` against the code. -/
def expectsInput (code : String) : Bool :=
  expectsInputChars code.toList

/-- `LANGUAGE_IDS` (`src/constants/index.ts`), as a lookup with the JS
`|| ""` fallback applied. -/
def languageIdFor (ext : String) : String :=
  if ext = "cs" then "csharp"
  else if ext = "cpp" then "cpp"
  else if ext = "c" then "c"
  else if ext = "py" then "python"
  else if ext = "java" then "java"
  else if ext = "js" then "javascript"
  else ""

/-- `filePath.split(".").pop()?.toLowerCase() || ""` from `getLanguageId`. -/
def fileExtension (p : String) : String :=
  jsOr (jsToLower ⟨(splitChars (fun c => c = '.') p.data).getLastD []⟩) ""

/-- `getLanguageId` (`src/utils/languageDetector.ts`): empty string when
there is no path or the extension is unsupported. -/
def getLanguageId (filePath : Option String) : String :=
  match filePath with
  | none => ""
  | some p => languageIdFor (fileExtension p)

/-! ## TabManager (`src/managers/TabManager.ts`)

`findTabById` returns the first tab with the given id and the TS mutators
write through that reference, so each mutator is modelled by updating the
first matching element of the list. -/

namespace TabManager

/-- Update the first tab whose id is `tabId` (the tab the TS code reaches
through `findTabById` and then mutates in place). -/
def updateFirst (f : Tab → Tab) (tabId : Nat) : List Tab → List Tab
  | [] => []
  | t :: ts => if t.id = tabId then f t :: ts else t :: updateFirst f tabId ts

/-- `findTabById`: `this.tabs.find((t) => t.id === id)`. -/
def findTabById (s : TabManagerState) (id : Nat) : Option Tab :=
  s.tabs.find? (fun t => t.id == id)

/-- `getActiveTab`: the active id looked up in the tab list. -/
def getActiveTab (s : TabManagerState) : Option Tab :=
  match s.activeTabId with
  | some id => findTabById s id
  | none => none

/-- `createTab`: appends a fresh tab (clean: `savedContent = content`,
`modified = false`) and makes it active. -/
def createTab (s : TabManagerState) (name : String) (path : Option String)
    (content : String) : Tab × TabManagerState :=
  let tab : Tab :=
    { id := s.nextTabId, name := name, path := path, content := content
      savedContent := content, modified := false }
  (tab, { tabs := s.tabs ++ [tab], activeTabId := some tab.id
          nextTabId := s.nextTabId + 1 })

/-- `handleActiveTabClosed`: promote the tab at `max 0 (closedIndex - 1)`
(`Nat` subtraction already truncates at 0) or clear the active pointer. -/
def handleActiveTabClosed (s : TabManagerState) (closedIndex : Nat) :
    TabManagerState :=
  if 0 < s.tabs.length then
    { s with activeTabId := some (s.tabs.getD (closedIndex - 1) default).id }
  else
    { s with activeTabId := none }

/-- `closeTab`: `confirmAnswer` is the (awaited) answer of the
`confirmClose` dialog, consulted only when the tab is modified. -/
def closeTab (s : TabManagerState) (tabId : Nat) (confirmAnswer : Bool) :
    Bool × TabManagerState :=
  match s.tabs.findIdx? (fun t => t.id == tabId) with
  | none => (false, s)
  | some tabIndex =>
      let tab := s.tabs.getD tabIndex default
      if tab.modified ∧ ¬confirmAnswer then (false, s)
      else
        let s' : TabManagerState := { s with tabs := s.tabs.eraseIdx tabIndex }
        if some tab.id = s.activeTabId then
          (true, handleActiveTabClosed s' tabIndex)
        else (true, s')

/-- `switchToTab`: fails silently when the id is unknown. -/
def switchToTab (s : TabManagerState) (tabId : Nat) : Bool × TabManagerState :=
  match findTabById s tabId with
  | none => (false, s)
  | some _ => (true, { s with activeTabId := some tabId })

/-- `updateTabContent`: refresh `content` and recompute `modified`. -/
def updateTabContent (s : TabManagerState) (tabId : Nat) (content : String) :
    TabManagerState :=
  let f : Tab → Tab := fun t =>
    { t with content := content, modified := content ≠ t.savedContent }
  { s with tabs := updateFirst f tabId s.tabs }

/-- `markTabSaved`: record `content` as both live and saved, clear `modified`. -/
def markTabSaved (s : TabManagerState) (tabId : Nat) (content : String) :
    TabManagerState :=
  let f : Tab → Tab := fun t =>
    { t with content := content, savedContent := content, modified := false }
  { s with tabs := updateFirst f tabId s.tabs }

/-- `updateTabPath`: set `path` and `name`; content fields untouched. -/
def updateTabPath (s : TabManagerState) (tabId : Nat) (path name : String) :
    TabManagerState :=
  let f : Tab → Tab := fun t => { t with path := some path, name := name }
  { s with tabs := updateFirst f tabId s.tabs }

/-- `markTabModified`: sets `modified := true` unconditionally. -/
def markTabModified (s : TabManagerState) (tabId : Nat) : TabManagerState :=
  { s with tabs := updateFirst (fun t => { t with modified := true }) tabId s.tabs }

/-- Modelled from the spec: `TabManager.updateTabName` is called by
`EditorManager.renameTab` for unsaved files but its definition is not in
the sources; per §4.1 the rename mutators are "pure field updates", so it
sets the display name only. -/
def updateTabName (s : TabManagerState) (tabId : Nat) (name : String) :
    TabManagerState :=
  { s with tabs := updateFirst (fun t => { t with name := name }) tabId s.tabs }

/-- Modelled from the spec: `TabManager.updateTabEditorState` is called by
`EditorManager.saveEditorState` but its definition is not in the sources;
per §4.1 (`updateViewState`: pure field update) and §4.2 step 1 it writes
the outgoing document's cursor and scroll offsets. -/
def updateTabEditorState (s : TabManagerState) (tabId : Nat)
    (cursorPosition scrollTop : Nat) : TabManagerState :=
  let f : Tab → Tab := fun t =>
    { t with cursorPosition := some cursorPosition, scrollTop := some scrollTop }
  { s with tabs := updateFirst f tabId s.tabs }

end TabManager

/-! ## EditorManager (`src/managers/EditorManager.ts`)

The CodeMirror `EditorView` is modelled by its document text, the cursor
(`state.selection.main.head`) and the scroll position
(`scrollDOM.scrollTop`).  A dispatch that changes the document fires the
`updateListener` synchronously, which runs `handleContentChange`; the
widget keeps the selection inside the document, which is the only fact
about its internal selection mapping the development relies on. -/

/-- The observable state of the CodeMirror editor binding. -/
structure EditorViewState where
  doc : String
  cursor : Nat
  scroll : Nat
deriving Repr, DecidableEq, Inhabited

/-- The combined state `EditorManager` manipulates: the tab store plus the
single editor binding. -/
structure AppState where
  tm : TabManagerState
  editor : EditorViewState
deriving Repr, DecidableEq, Inhabited

namespace EditorManager

/-- `handleContentChange` (lines 148–155): refresh the active tab's
content from the editor document (the re-render is presentation only). -/
def handleContentChange (s : AppState) : AppState :=
  match TabManager.getActiveTab s.tm with
  | none => s
  | some activeTab =>
      { s with tm := TabManager.updateTabContent s.tm activeTab.id s.editor.doc }

/-- `saveEditorState` (lines 161–173): write the editor's cursor and
scroll position into the active tab. -/
def saveEditorState (s : AppState) : AppState :=
  match TabManager.getActiveTab s.tm with
  | none => s
  | some activeTab =>
      { s with tm := TabManager.updateTabEditorState s.tm activeTab.id
                       s.editor.cursor s.editor.scroll }

/-- `restoreEditorState` (lines 175–197): restore the cursor clamped to
the document length (`Math.min(tab.cursorPosition, doc.length)`) when
recorded, and the scroll position when recorded (`tab.scrollTop || 0`
equals `tab.scrollTop` on a recorded `Nat`). -/
def restoreEditorState (s : AppState) (tabId : Nat) : AppState :=
  match TabManager.findTabById s.tm tabId with
  | none => s
  | some tab =>
      let s₁ :=
        match tab.cursorPosition with
        | some cp =>
            { s with editor := { s.editor with cursor := min cp s.editor.doc.length } }
        | none => s
      match tab.scrollTop with
      | some st => { s₁ with editor := { s₁.editor with scroll := st } }
      | none => s₁

/-- `updateEditorContent` (lines 504–512): replace the whole editor
document; the dispatch fires the update listener, so `handleContentChange`
runs.  The widget maps the old selection through the change keeping it
within bounds; the mapped value is irrelevant because every caller either
restores a recorded cursor afterwards or never reads it. -/
def updateEditorContent (s : AppState) (content : String) : AppState :=
  handleContentChange
    { s with editor := { s.editor with doc := content
                                       cursor := min s.editor.cursor content.length } }

/-- A user edit event: the editor document and cursor change, then the
update listener runs `handleContentChange`. -/
def editorEdit (s : AppState) (newDoc : String) (newCursor : Nat) : AppState :=
  handleContentChange
    { s with editor := { s.editor with doc := newDoc
                                       cursor := min newCursor newDoc.length } }

/-- A sequence of user edits, applied left to right. -/
def applyEdits (s : AppState) (edits : List (String × Nat)) : AppState :=
  edits.foldl (fun st e => editorEdit st e.1 e.2) s

/-- `EditorManager.switchToTab` (lines 221–237): save the outgoing
editor state, switch the active pointer, load the incoming tab's content,
then restore its recorded view state. -/
def switchToTab (s : AppState) (tabId : Nat) : AppState :=
  let s₁ := saveEditorState s
  let r := TabManager.switchToTab s₁.tm tabId
  if r.1 = false then { s₁ with tm := r.2 }
  else
    let s₂ : AppState := { s₁ with tm := r.2 }
    match TabManager.getActiveTab s₂.tm with
    | none => s₂
    | some tab => restoreEditorState (updateEditorContent s₂ tab.content) tabId

/-- `EditorManager.createNewTab` (lines 203–219): save the outgoing
state, create and activate the new tab, load its content, restore its
(empty) view state. -/
def createNewTab (s : AppState) (name : String) (path : Option String)
    (content : String) : AppState :=
  let s₁ := saveEditorState s
  let r := TabManager.createTab s₁.tm name path content
  let s₂ : AppState := { s₁ with tm := r.2 }
  restoreEditorState (updateEditorContent s₂ r.1.content) r.1.id

/-- `EditorManager.closeTab` (lines 239–260): delegate to the store; when
the active tab was removed, either auto-create a blank tab (empty store)
or load the promoted neighbour.  `confirmAnswer` is the dirty-close
dialog's answer. -/
def closeTab (s : AppState) (tabId : Nat) (confirmAnswer : Bool) : AppState :=
  let wasActive := s.tm.activeTabId = some tabId
  let r := TabManager.closeTab s.tm tabId confirmAnswer
  if r.1 = false then { s with tm := r.2 }
  else
    let s₁ : AppState := { s with tm := r.2 }
    if wasActive then
      if s₁.tm.tabs.isEmpty then
        createNewTab s₁ "Untitled" none ""
      else
        match TabManager.getActiveTab s₁.tm with
        | none => s₁
        | some newActiveTab =>
            restoreEditorState (updateEditorContent s₁ newActiveTab.content)
              newActiveTab.id
    else s₁

/-- `EditorManager.saveFile` (lines 350–377).  `promptResult` is the
outcome of `promptSaveLocation` (consulted only when the tab has no
path); `saveSucceeds` is whether `fileService.saveFile` returns rather
than throws.  The `catch` block only logs, so on a throw the state is
whatever had been built before the `await`. -/
def saveFile (s : AppState) (promptResult : Option String)
    (saveSucceeds : Bool) : AppState :=
  match TabManager.getActiveTab s.tm with
  | none => s
  | some activeTab =>
      match activeTab.path with
      | some _ =>
          if saveSucceeds then
            { s with tm := TabManager.markTabSaved s.tm activeTab.id s.editor.doc }
          else s
      | none =>
          match promptResult with
          | none => s
          | some filePath =>
              let fileName := extractFileName filePath
              let s₁ : AppState :=
                { s with tm := TabManager.updateTabPath s.tm activeTab.id
                               filePath fileName }
              if saveSucceeds then
                { s₁ with tm := TabManager.markTabSaved s₁.tm activeTab.id
                                s₁.editor.doc }
              else s₁

/-- The externally visible actions `runCode` performs, in order. -/
inductive RunAction
  | displayOutput (text : String) (kind : OutputType)
  | showCSharpWarningModal
  | setRunButtonState (busy : Bool) (label : String)
  | networkCall (payload : PistonExecuteRequest)
deriving Repr, DecidableEq

def RunAction.isNetworkCall : RunAction → Bool
  | RunAction.networkCall _ => true
  | _ => false

/-- `EditorManager.runCode` (lines 430–488), as the ordered list of
actions it performs.  `stdinBox` is the value of the `code-input`
textarea (`inputTextarea?.value || ""`); `response` is what awaiting
`pistonService.executeCode` yields — the parsed body on success, or the
thrown error's message.  The `finally` block always resets the run
button. -/
def runCodeTrace (s : AppState) (stdinBox : String)
    (response : Except String PistonExecuteResponse) : List RunAction :=
  match TabManager.getActiveTab s.tm with
  | none => [RunAction.displayOutput "No active file to run!" OutputType.error]
  | some activeTab =>
      let language := getLanguageId activeTab.path
      if language = "" then
        [RunAction.displayOutput
          "Unsupported file type! Supported: .cs, .cpp, .c, .py, .java, .js"
          OutputType.error]
      else if language = "csharp" then
        [RunAction.showCSharpWarningModal]
      else
        let stdin := stdinBox
        let code := s.editor.doc
        [RunAction.setRunButtonState true "Running...",
         RunAction.displayOutput "Executing code..." OutputType.running] ++
        (if expectsInput code ∧ jsTrim stdin = "" then
          [RunAction.displayOutput
            "This program is waiting for input.\n\nPlease provide input in the Input box before running."
            OutputType.error]
         else
          RunAction.networkCall (PistonService.buildPayload language code stdin) ::
          (match response with
           | Except.ok result =>
               let fo := PistonService.formatOutput result
               [RunAction.displayOutput fo.1 fo.2]
           | Except.error msg =>
               [RunAction.displayOutput ("Error: " ++ msg) OutputType.error])) ++
        [RunAction.setRunButtonState false "Run Code"]

end EditorManager

/-! ## Concrete states used to evaluate the development -/

/-- A response killed by signal while also carrying a failed compile stage
and a zero run exit code. -/
def sigkillResponse : PistonExecuteResponse :=
  { language := "python", version := "3"
    compile := some { stdout := "", stderr := "warning", code := 1, output := "w" }
    run := { stdout := "partial", stderr := "", code := some 0
             signal := some "SIGKILL", output := "partial" } }

/-- A response with a failed compile stage and arbitrary run contents. -/
def compileErrorResponse : PistonExecuteResponse :=
  { language := "cpp", version := "1"
    compile := some { stdout := "", stderr := "main.cpp:1: error", code := 1
                      output := "main.cpp:1: error" }
    run := { stdout := "garbage", stderr := "noise", code := some 7
             signal := none, output := "garbage" } }

/-! ## Lemmas about the first-match update -/

theorem length_updateFirst (f : Tab → Tab) (tabId : Nat) (ts : List Tab) :
    (TabManager.updateFirst f tabId ts).length = ts.length := by
  induction ts with
  | nil => rfl
  | cons t ts ih =>
      unfold TabManager.updateFirst
      by_cases h : t.id = tabId <;> simp [h, ih]

theorem find?_updateFirst_self (f : Tab → Tab) (tabId : Nat) (ts : List Tab)
    (hpres : ∀ t, (f t).id = t.id) :
    (TabManager.updateFirst f tabId ts).find? (fun t => t.id == tabId) =
      (ts.find? (fun t => t.id == tabId)).map f := by
  induction ts with
  | nil => rfl
  | cons t ts ih =>
      unfold TabManager.updateFirst
      by_cases h : t.id = tabId
      · simp [List.find?_cons, hpres, h]
      · simp [List.find?_cons, h, ih]

theorem find?_updateFirst_ne (f : Tab → Tab) (tabId id : Nat) (ts : List Tab)
    (hpres : ∀ t, (f t).id = t.id) (hne : id ≠ tabId) :
    (TabManager.updateFirst f tabId ts).find? (fun t => t.id == id) =
      ts.find? (fun t => t.id == id) := by
  induction ts with
  | nil => rfl
  | cons t ts ih =>
      unfold TabManager.updateFirst
      by_cases h : t.id = tabId
      · subst h
        simp [List.find?_cons, hpres, Ne.symm hne]
      · rw [if_neg h]
        by_cases h2 : t.id = id <;> simp [List.find?_cons, h2, ih]

theorem mem_updateFirst (f : Tab → Tab) (tabId : Nat) (ts : List Tab) (x : Tab)
    (hx : x ∈ TabManager.updateFirst f tabId ts) :
    x ∈ ts ∨ ∃ t, ts.find? (fun t => t.id == tabId) = some t ∧ x = f t := by
  induction ts with
  | nil => cases hx
  | cons t ts ih =>
      unfold TabManager.updateFirst at hx
      by_cases h : t.id = tabId
      · rw [if_pos h] at hx
        rcases List.mem_cons.mp hx with h1 | h1
        · exact Or.inr ⟨t, by simp [List.find?_cons, h], h1⟩
        · exact Or.inl (List.mem_cons_of_mem _ h1)
      · rw [if_neg h] at hx
        rcases List.mem_cons.mp hx with h1 | h1
        · exact Or.inl (h1 ▸ List.mem_cons_self _ _)
        · rcases ih h1 with h2 | ⟨u, hu, hxu⟩
          · exact Or.inl (List.mem_cons_of_mem _ h2)
          · exact Or.inr ⟨u, by simp [List.find?_cons, h, hu], hxu⟩

theorem endsWithNewline_append (s : String) :
    endsWithNewline (s ++ "\n") = true := by
  simp [endsWithNewline, String.data_append]

/-! ## Claims about the execution client -/

/-- C10: every request built by `executeCode` carries its source as a single
file entry hard-coded to the name "Program.cs", whatever the language. -/
theorem buildPayload_single_file_program_cs (language code stdin : String) :
    (PistonService.buildPayload language code stdin).files =
      [{ name := some "Program.cs", content := code }] := rfl

/-- C4: a response whose run signal is SIGKILL is classified as an error
whose text announces the termination ("Program terminated …") and appends
the partial run stdout when it is non-empty, independently of the run
exit code and of the compile object. -/
theorem formatOutput_sigkill (result : PistonExecuteResponse)
    (h : result.run.signal = some "SIGKILL") :
    (PistonService.formatOutput result).2 = OutputType.error ∧
    (PistonService.formatOutput result).1 =
      "Program terminated (timeout or waiting for input)\n"
        ++ (if result.run.stdout ≠ "" then "\nOutput:\n" ++ result.run.stdout
            else "") := by
  unfold PistonService.formatOutput
  rw [if_pos h]
  exact ⟨rfl, rfl⟩

theorem formatOutput_sigkill_witness :
    sigkillResponse.run.signal = some "SIGKILL" ∧
    ((PistonService.formatOutput sigkillResponse).2 = OutputType.error ∧
     (PistonService.formatOutput sigkillResponse).1 =
       "Program terminated (timeout or waiting for input)\n"
         ++ (if sigkillResponse.run.stdout ≠ ""
             then "\nOutput:\n" ++ sigkillResponse.run.stdout else "")) :=
  ⟨rfl, formatOutput_sigkill sigkillResponse rfl⟩

/-- C5: with no SIGKILL signal, a present compile stage with non-zero exit
code and non-empty stderr yields an error outcome whose body (the text
after the "Compilation Failed" label) is exactly that stderr, whatever
the run object holds; the compile `output` field is only consulted when
the stderr is empty. -/
theorem formatOutput_compile_error (result : PistonExecuteResponse)
    (c : CompileResult)
    (h1 : result.run.signal ≠ some "SIGKILL")
    (h2 : result.compile = some c)
    (h3 : c.code ≠ 0) (h4 : c.stderr ≠ "") :
    PistonService.formatOutput result =
      ("Compilation Failed\n\n" ++ c.stderr, OutputType.error) := by
  unfold PistonService.formatOutput
  rw [if_neg h1, h2]
  simp only [if_pos h3, jsOr, if_pos h4]

theorem formatOutput_compile_error_witness :
    compileErrorResponse.run.signal ≠ some "SIGKILL" ∧
    PistonService.formatOutput compileErrorResponse =
      ("Compilation Failed\n\n" ++ "main.cpp:1: error", OutputType.error) :=
  ⟨by decide, formatOutput_compile_error compileErrorResponse _ (by decide) rfl
      (by decide) (by decide)⟩

/-- C6 counterexample: for the non-empty user stdin "5\n\n" the submitted
stdin field is "5\n\n" unchanged — its last two characters are both
newlines, so it does not end with exactly one trailing newline; the code
only appends a newline when one is missing, it never strips extras. -/
theorem executeCode_stdin_exactly_one_newline_cex :
    (PistonService.buildPayload "python" "print(1)" "5\n\n").stdin = some "5\n\n" ∧
    "5\n\n".data.getLast? = some '\n' ∧
    "5\n\n".data.dropLast.getLast? = some '\n' :=
  ⟨rfl, by decide, by decide⟩

/-- C6 amended: a non-empty stdin is sent ending with at least one
trailing newline — one is appended exactly when the input does not
already end with a newline, and existing trailing newlines are kept — and
an empty stdin omits the field entirely. -/
theorem executeCode_stdin_normalisation (language code stdin : String) :
    ((PistonService.buildPayload language code stdin).stdin =
       if stdin = "" then none
       else some (if endsWithNewline stdin then stdin else stdin ++ "\n")) ∧
    (stdin ≠ "" →
       endsWithNewline
         (((PistonService.buildPayload language code stdin).stdin).getD "") = true) := by
  unfold PistonService.buildPayload PistonService.formattedStdin
  by_cases h : stdin = ""
  · subst h
    exact ⟨rfl, fun hc => absurd rfl hc⟩
  · have hne : stdin ++ "\n" ≠ "" := by
      intro hcon
      have := congrArg String.data hcon
      simp [String.data_append] at this
    by_cases he : endsWithNewline stdin
    · exact ⟨by simp [he, h], fun _ => by simp [he, h]⟩
    · exact ⟨by simp [he, h, hne], fun _ => by
        simp [he, h, hne, endsWithNewline_append]⟩

theorem executeCode_stdin_normalisation_witness :
    ("5" : String) ≠ "" ∧
    ((PistonService.buildPayload "python" "print(1)" "5").stdin =
       if ("5" : String) = "" then none
       else some (if endsWithNewline "5" then "5" else "5" ++ "\n")) ∧
    endsWithNewline
      (((PistonService.buildPayload "python" "print(1)" "5").stdin).getD "") = true :=
  ⟨by decide, (executeCode_stdin_normalisation "python" "print(1)" "5").1,
   (executeCode_stdin_normalisation "python" "print(1)" "5").2 (by decide)⟩

/-! ## Claims about editor-state restore and run orchestration -/

/-- C9: restoring a tab whose recorded cursor offset exceeds the current
document length clamps the cursor to end-of-text
(`Math.min(tab.cursorPosition, doc.length)`); the function is total (never
raises), and clamping is the only correction: the document, the tab store
and the recorded scroll restoration are untouched by it. -/
theorem restoreEditorState_clamps (s : AppState) (tabId : Nat) (tab : Tab)
    (cp : Nat)
    (h1 : TabManager.findTabById s.tm tabId = some tab)
    (h2 : tab.cursorPosition = some cp)
    (h3 : s.editor.doc.length < cp) :
    (EditorManager.restoreEditorState s tabId).editor.cursor =
      s.editor.doc.length ∧
    (EditorManager.restoreEditorState s tabId).editor.doc = s.editor.doc ∧
    (EditorManager.restoreEditorState s tabId).editor.scroll =
      tab.scrollTop.getD s.editor.scroll ∧
    (EditorManager.restoreEditorState s tabId).tm = s.tm := by
  unfold EditorManager.restoreEditorState
  rw [h1]
  have hmin : min cp s.editor.doc.length = s.editor.doc.length :=
    min_eq_right (le_of_lt h3)
  cases hst : tab.scrollTop <;> simp [h2, hst, hmin]

/-- A tab whose recorded cursor offset (97) exceeds the length of its
two-character content. -/
def staleCursorTab : Tab :=
  { id := 1, name := "a.py", path := some "a.py"
    content := "ab", savedContent := "ab", modified := false
    cursorPosition := some 97, scrollTop := some 3 }

/-- A store holding only `staleCursorTab`, displayed in the editor. -/
def staleCursorState : AppState :=
  { tm := { tabs := [staleCursorTab], activeTabId := some 1, nextTabId := 2 }
    editor := { doc := "ab", cursor := 0, scroll := 0 } }

theorem restoreEditorState_clamps_witness :
    TabManager.findTabById staleCursorState.tm 1 = some staleCursorTab ∧
    staleCursorState.editor.doc.length < 97 ∧
    ((EditorManager.restoreEditorState staleCursorState 1).editor.cursor =
       staleCursorState.editor.doc.length ∧
     (EditorManager.restoreEditorState staleCursorState 1).editor.doc =
       staleCursorState.editor.doc ∧
     (EditorManager.restoreEditorState staleCursorState 1).editor.scroll =
       staleCursorTab.scrollTop.getD staleCursorState.editor.scroll ∧
     (EditorManager.restoreEditorState staleCursorState 1).tm =
       staleCursorState.tm) :=
  ⟨by decide, by decide,
   restoreEditorState_clamps staleCursorState 1 staleCursorTab 97
     (by decide) (by decide) (by decide)⟩

/-- C7: running a document whose extension is the blocked `.cs` performs
exactly one action — showing the C# warning modal — whatever the stdin
box, the editor text or the (never reached) network outcome: the trace
contains no network call, no request is built, and no other state is
touched. -/
theorem runCode_csharp_blocked (s : AppState) (stdinBox : String)
    (response : Except String PistonExecuteResponse) (tab : Tab) (p : String)
    (hactive : TabManager.getActiveTab s.tm = some tab)
    (hpath : tab.path = some p)
    (hext : fileExtension p = "cs") :
    EditorManager.runCodeTrace s stdinBox response =
      [EditorManager.RunAction.showCSharpWarningModal] ∧
    ∀ a ∈ EditorManager.runCodeTrace s stdinBox response,
      a.isNetworkCall = false := by
  have hlang : getLanguageId tab.path = "csharp" := by
    rw [hpath]
    show languageIdFor (fileExtension p) = "csharp"
    rw [hext]
    rfl
  have htrace : EditorManager.runCodeTrace s stdinBox response =
      [EditorManager.RunAction.showCSharpWarningModal] := by
    unfold EditorManager.runCodeTrace
    rw [hactive]
    simp [hlang]
  refine ⟨htrace, ?_⟩
  rw [htrace]
  intro a ha
  rcases List.mem_singleton.mp ha with rfl
  rfl

/-- A store whose active tab is a modified C# document. -/
def csharpState : AppState :=
  { tm := { tabs := [{ id := 1, name := "Main.cs", path := some "Main.cs"
                       content := "class C {}", savedContent := ""
                       modified := true }]
            activeTabId := some 1, nextTabId := 2 }
    editor := { doc := "class C {}", cursor := 0, scroll := 0 } }

theorem runCode_csharp_blocked_witness :
    (∃ tab, TabManager.getActiveTab csharpState.tm = some tab ∧
       tab.path = some "Main.cs") ∧
    fileExtension "Main.cs" = "cs" ∧
    (EditorManager.runCodeTrace csharpState "" (Except.error "unreached") =
       [EditorManager.RunAction.showCSharpWarningModal] ∧
     ∀ a ∈ EditorManager.runCodeTrace csharpState "" (Except.error "unreached"),
       a.isNetworkCall = false) :=
  ⟨⟨{ id := 1, name := "Main.cs", path := some "Main.cs"
      content := "class C {}", savedContent := "", modified := true },
    by decide, by decide⟩, by decide,
   runCode_csharp_blocked csharpState "" (Except.error "unreached")
     { id := 1, name := "Main.cs", path := some "Main.cs"
       content := "class C {}", savedContent := "", modified := true }
     "Main.cs" (by decide) (by decide) (by decide)⟩

/-! ## Claims about the dirty-derivation invariant -/

/-- The dirty-derivation invariant of the spec: every tab's `modified`
flag equals `content ≠ savedContent`. -/
def DirtyInv (s : TabManagerState) : Prop :=
  ∀ t ∈ s.tabs, (t.modified = true ↔ t.content ≠ t.savedContent)

instance : DecidablePred DirtyInv := fun s =>
  inferInstanceAs (Decidable (∀ t ∈ s.tabs, _))

/-- C1 counterexample: on a fresh clean tab (content = savedContent = ""),
`markTabModified` — the mutator the template-insert path calls — sets
`modified := true` unconditionally, so afterwards `modified = true` while
`content ≠ savedContent` is false: the invariant does not survive that
mutator. -/
theorem dirty_invariant_markTabModified_cex :
    ¬ DirtyInv (TabManager.markTabModified
        (TabManager.createTab
          { tabs := [], activeTabId := none, nextTabId := 1 }
          "Untitled" none "").2 1) := by decide

/-- C1 amended: the invariant `modified = (content ≠ savedContent)` is
preserved by every Document-Store mutator except `markTabModified`:
editing (`updateTabContent`), saving (`markTabSaved`), renaming
(`updateTabPath`, `updateTabName`), recording view state
(`updateTabEditorState`) and creation all keep it; `markTabModified` sets
the flag unconditionally and keeps the invariant only when the target
tab's content already differs from its saved content (which is how the
template-insert path uses it: the editor dispatch has already run
`updateTabContent` with the enlarged text). -/
theorem dirty_invariant_mutators (s : TabManagerState) (tabId : Nat)
    (content path name : String) (cp st : Nat)
    (h : DirtyInv s) :
    DirtyInv (TabManager.updateTabContent s tabId content) ∧
    DirtyInv (TabManager.markTabSaved s tabId content) ∧
    DirtyInv (TabManager.updateTabPath s tabId path name) ∧
    DirtyInv (TabManager.updateTabName s tabId name) ∧
    DirtyInv (TabManager.updateTabEditorState s tabId cp st) ∧
    DirtyInv (TabManager.createTab s name (some path) content).2 ∧
    ((∀ t, TabManager.findTabById s tabId = some t →
        t.content ≠ t.savedContent) →
      DirtyInv (TabManager.markTabModified s tabId)) := by
  refine ⟨?_, ?_, ?_, ?_, ?_, ?_, ?_⟩
  · intro x hx
    rcases mem_updateFirst _ _ _ _ hx with hmem | ⟨t, _, rfl⟩
    · exact h x hmem
    · simp
  · intro x hx
    rcases mem_updateFirst _ _ _ _ hx with hmem | ⟨t, _, rfl⟩
    · exact h x hmem
    · simp
  · intro x hx
    rcases mem_updateFirst _ _ _ _ hx with hmem | ⟨t, ht, rfl⟩
    · exact h x hmem
    · exact h t (List.mem_of_find?_eq_some ht)
  · intro x hx
    rcases mem_updateFirst _ _ _ _ hx with hmem | ⟨t, ht, rfl⟩
    · exact h x hmem
    · exact h t (List.mem_of_find?_eq_some ht)
  · intro x hx
    rcases mem_updateFirst _ _ _ _ hx with hmem | ⟨t, ht, rfl⟩
    · exact h x hmem
    · exact h t (List.mem_of_find?_eq_some ht)
  · intro x hx
    rcases List.mem_append.mp hx with hmem | hmem
    · exact h x hmem
    · rcases List.mem_singleton.mp hmem with rfl
      simp
  · intro hc x hx
    rcases mem_updateFirst _ _ _ _ hx with hmem | ⟨t, ht, rfl⟩
    · exact h x hmem
    · exact ⟨fun _ => hc t ht, fun _ => rfl⟩

/-- A one-tab store satisfying the invariant whose tab is dirty. -/
def dirtyOneTabStore : TabManagerState :=
  { tabs := [{ id := 1, name := "a.py", path := some "a.py"
               content := "print(1)", savedContent := "", modified := true }]
    activeTabId := some 1, nextTabId := 2 }

theorem dirty_invariant_mutators_witness :
    DirtyInv dirtyOneTabStore ∧
    (∀ t, TabManager.findTabById dirtyOneTabStore 1 = some t →
       t.content ≠ t.savedContent) ∧
    (DirtyInv (TabManager.updateTabContent dirtyOneTabStore 1 "x") ∧
     DirtyInv (TabManager.markTabSaved dirtyOneTabStore 1 "x") ∧
     DirtyInv (TabManager.updateTabPath dirtyOneTabStore 1 "b.py" "b.py") ∧
     DirtyInv (TabManager.updateTabName dirtyOneTabStore 1 "b.py") ∧
     DirtyInv (TabManager.updateTabEditorState dirtyOneTabStore 1 4 7) ∧
     DirtyInv (TabManager.createTab dirtyOneTabStore "b.py" (some "b.py") "x").2 ∧
     DirtyInv (TabManager.markTabModified dirtyOneTabStore 1)) := by
  have hinv : DirtyInv dirtyOneTabStore := by decide
  have hne : ∀ t, TabManager.findTabById dirtyOneTabStore 1 = some t →
      t.content ≠ t.savedContent := by decide
  have hmut := dirty_invariant_mutators dirtyOneTabStore 1 "x" "b.py" "b.py" 4 7 hinv
  exact ⟨hinv, hne,
    ⟨hmut.1, hmut.2.1, hmut.2.2.1, hmut.2.2.2.1, hmut.2.2.2.2.1,
     hmut.2.2.2.2.2.1, hmut.2.2.2.2.2.2 hne⟩⟩

/-! ## Claims about save failure -/

/-- A store whose active tab has never been saved (no path). -/
def unsavedTabState : AppState :=
  { tm := { tabs := [{ id := 1, name := "Untitled", path := none
                       content := "x", savedContent := "", modified := true }]
            activeTabId := some 1, nextTabId := 2 }
    editor := { doc := "x", cursor := 1, scroll := 0 } }

/-- C3 counterexample: saving a pathless tab prompts for a location and
records it with `updateTabPath` before the write; when the write then
throws, the tab's `path` and `name` remain changed — the in-memory
Document state is not left entirely unchanged by the failed save. -/
theorem saveFile_failure_changes_path_cex :
    (TabManager.findTabById unsavedTabState.tm 1).map Tab.path = some none ∧
    (TabManager.findTabById
        (EditorManager.saveFile unsavedTabState (some "/tmp/a.txt") false).tm
        1).map Tab.path = some (some "/tmp/a.txt") := by decide

/-- C3 amended: a failed save never marks the document clean — the active
tab's `content`, `savedContent` and `modified` are exactly what they were
before the attempt — and when the tab already had a path the whole state
is unchanged; only for a previously pathless tab do the path and name
chosen in the save dialog survive the failed write. -/
theorem saveFile_failure_keeps_dirty_state (s : AppState)
    (promptResult : Option String) (tab : Tab)
    (h : TabManager.getActiveTab s.tm = some tab) :
    (∀ p, tab.path = some p →
       EditorManager.saveFile s promptResult false = s) ∧
    (∀ t', TabManager.findTabById
        (EditorManager.saveFile s promptResult false).tm tab.id = some t' →
       t'.content = tab.content ∧ t'.savedContent = tab.savedContent ∧
         t'.modified = tab.modified) := by
  have htabid : ∀ aid, s.tm.activeTabId = some aid → tab.id = aid := by
    intro aid haid
    unfold TabManager.getActiveTab at h
    rw [haid] at h
    have := List.find?_some h
    simpa using this
  have hfind : TabManager.findTabById s.tm tab.id = some tab := by
    unfold TabManager.getActiveTab at h
    cases haid : s.tm.activeTabId with
    | none => rw [haid] at h; cases h
    | some aid =>
        rw [haid] at h
        rwa [htabid aid haid]
  constructor
  · intro p hp
    unfold EditorManager.saveFile
    simp [h, hp]
  · intro t' ht'
    unfold EditorManager.saveFile at ht'
    simp only [h] at ht'
    cases hp : tab.path with
    | some q =>
        simp only [hp] at ht'
        simp only [Bool.false_eq_true, if_false] at ht'
        rw [hfind] at ht'
        cases ht'
        exact ⟨rfl, rfl, rfl⟩
    | none =>
        simp only [hp] at ht'
        cases hpr : promptResult with
        | none =>
            simp only [hpr] at ht'
            rw [hfind] at ht'
            cases ht'
            exact ⟨rfl, rfl, rfl⟩
        | some fp =>
            simp only [hpr, Bool.false_eq_true, if_false] at ht'
            simp only [TabManager.updateTabPath, TabManager.findTabById] at ht'
            rw [find?_updateFirst_self
                  (fun t => { t with path := some fp, name := extractFileName fp })
                  tab.id s.tm.tabs (fun t => rfl)] at ht'
            unfold TabManager.findTabById at hfind
            rw [hfind] at ht'
            cases ht'
            exact ⟨rfl, rfl, rfl⟩

theorem saveFile_failure_keeps_dirty_state_witness :
    TabManager.getActiveTab unsavedTabState.tm =
      some { id := 1, name := "Untitled", path := none
             content := "x", savedContent := "", modified := true } ∧
    (∀ t', TabManager.findTabById
        (EditorManager.saveFile unsavedTabState (some "/tmp/a.txt") false).tm
        1 = some t' →
       t'.content = "x" ∧ t'.savedContent = "" ∧ t'.modified = true) := by
  have h := saveFile_failure_keeps_dirty_state unsavedTabState
    (some "/tmp/a.txt")
    { id := 1, name := "Untitled", path := none
      content := "x", savedContent := "", modified := true } (by decide)
  exact ⟨by decide, h.2⟩


/-! ## Claims about closing tabs -/

theorem tm_restoreEditorState (s : AppState) (tabId : Nat) :
    (EditorManager.restoreEditorState s tabId).tm = s.tm := by
  unfold EditorManager.restoreEditorState
  cases h : TabManager.findTabById s.tm tabId with
  | none => rfl
  | some tab =>
      cases hc : tab.cursorPosition <;> cases hs : tab.scrollTop <;>
        simp [hc, hs]

theorem tabs_length_handleContentChange (s : AppState) :
    (EditorManager.handleContentChange s).tm.tabs.length = s.tm.tabs.length := by
  unfold EditorManager.handleContentChange
  cases h : TabManager.getActiveTab s.tm <;>
    simp [h, TabManager.updateTabContent, length_updateFirst]

theorem tabs_length_saveEditorState (s : AppState) :
    (EditorManager.saveEditorState s).tm.tabs.length = s.tm.tabs.length := by
  unfold EditorManager.saveEditorState
  cases h : TabManager.getActiveTab s.tm <;>
    simp [h, TabManager.updateTabEditorState, length_updateFirst]

theorem tabs_length_updateEditorContent (s : AppState) (c : String) :
    (EditorManager.updateEditorContent s c).tm.tabs.length = s.tm.tabs.length := by
  unfold EditorManager.updateEditorContent
  rw [tabs_length_handleContentChange]

theorem tabs_length_createNewTab (s : AppState) (n : String) (p : Option String)
    (c : String) :
    (EditorManager.createNewTab s n p c).tm.tabs.length =
      s.tm.tabs.length + 1 := by
  unfold EditorManager.createNewTab
  rw [tm_restoreEditorState, tabs_length_updateEditorContent]
  simp [TabManager.createTab, tabs_length_saveEditorState]

theorem TMcloseTab_not_closed (s : TabManagerState) (tabId : Nat) (ca : Bool)
    (h : (TabManager.closeTab s tabId ca).1 = false) :
    (TabManager.closeTab s tabId ca).2 = s := by
  unfold TabManager.closeTab at *
  cases hf : s.tabs.findIdx? (fun t => t.id == tabId) with
  | none => rfl
  | some i =>
      rw [hf] at h
      dsimp only at h ⊢
      by_cases hm : (s.tabs.getD i default).modified = true ∧ ¬ca = true
      · rw [if_pos hm]
      · rw [if_neg hm] at h ⊢
        by_cases ha : some (s.tabs.getD i default).id = s.activeTabId
        · rw [if_pos ha] at h
          exact Bool.noConfusion h
        · rw [if_neg ha] at h
          exact Bool.noConfusion h

theorem TMcloseTab_closed_tabs (s : TabManagerState) (tabId : Nat) (ca : Bool)
    (h : (TabManager.closeTab s tabId ca).1 = true) :
    ∃ i, s.tabs.findIdx? (fun t => t.id == tabId) = some i ∧
      i < s.tabs.length ∧
      (TabManager.closeTab s tabId ca).2.tabs = s.tabs.eraseIdx i := by
  unfold TabManager.closeTab at *
  cases hf : s.tabs.findIdx? (fun t => t.id == tabId) with
  | none => rw [hf] at h; cases h
  | some i =>
      rw [hf] at h
      dsimp only at h ⊢
      have hlt : i < s.tabs.length :=
        (List.findIdx?_eq_some_iff_findIdx_eq.mp hf).1
      refine ⟨i, rfl, hlt, ?_⟩
      by_cases hm : (s.tabs.getD i default).modified = true ∧ ¬ca = true
      · rw [if_pos hm] at h
        exact Bool.noConfusion h
      · rw [if_neg hm]
        by_cases ha : some (s.tabs.getD i default).id = s.activeTabId
        · rw [if_pos ha]
          unfold TabManager.handleActiveTabClosed
          by_cases hp : 0 < (s.tabs.eraseIdx i).length
          · rw [if_pos hp]
          · rw [if_neg hp]
        · rw [if_neg ha]

theorem TMcloseTab_singleton_was_active (t₀ : Tab) (s : TabManagerState)
    (tabId : Nat) (ca : Bool)
    (htabs : s.tabs = [t₀]) (hact : s.activeTabId = some t₀.id)
    (h : (TabManager.closeTab s tabId ca).1 = true) :
    s.activeTabId = some tabId := by
  obtain ⟨i, hf, _, _⟩ := TMcloseTab_closed_tabs s tabId ca h
  rw [htabs] at hf
  by_cases hp : t₀.id == tabId
  · have ht : t₀.id = tabId := by simpa using hp
    rw [hact, ht]
  · rw [List.findIdx?_cons] at hf
    simp [hp] at hf

/-- C8: closing a tab never leaves the Document Store empty: when the
store held a single document, exactly one document exists afterwards —
either the auto-created blank tab (dirty-close confirmed or tab clean) or
the original (unknown id, or dirty-close declined); in general any close
operation leaves at least one document.  The hypothesis is the reachable
well-formedness fact that the active pointer designates a stored tab. -/
theorem closeTab_store_never_empty (s : AppState) (tabId : Nat) (ca : Bool)
    (hwf : ∃ t ∈ s.tm.tabs, s.tm.activeTabId = some t.id) :
    1 ≤ (EditorManager.closeTab s tabId ca).tm.tabs.length ∧
    (s.tm.tabs.length = 1 →
      (EditorManager.closeTab s tabId ca).tm.tabs.length = 1) := by
  obtain ⟨t₀, ht₀, hact⟩ := hwf
  have hpos : 0 < s.tm.tabs.length := List.length_pos_of_mem ht₀
  unfold EditorManager.closeTab
  dsimp only
  by_cases hc : (TabManager.closeTab s.tm tabId ca).1 = false
  · rw [if_pos hc, TMcloseTab_not_closed s.tm tabId ca hc]
    exact ⟨hpos, fun h1 => h1⟩
  · have hct : (TabManager.closeTab s.tm tabId ca).1 = true := by
      cases h' : (TabManager.closeTab s.tm tabId ca).1
      · exact absurd h' hc
      · rfl
    obtain ⟨i, hf, hlt, htabs'⟩ := TMcloseTab_closed_tabs s.tm tabId ca hct
    have hlen : (TabManager.closeTab s.tm tabId ca).2.tabs.length =
        s.tm.tabs.length - 1 := by
      rw [htabs', List.length_eraseIdx, if_pos hlt]
    rw [if_neg hc]
    by_cases hw : s.tm.activeTabId = some tabId
    · rw [if_pos hw]
      by_cases hemp : (TabManager.closeTab s.tm tabId ca).2.tabs.isEmpty = true
      · rw [if_pos hemp, tabs_length_createNewTab]
        exact ⟨Nat.le_add_left 1 _, fun _ => by
          have h0 : (TabManager.closeTab s.tm tabId ca).2.tabs.length = 0 := by
            simpa [List.isEmpty_iff_length_eq_zero] using hemp
          rw [h0]⟩
      · rw [if_neg hemp]
        have hnz : 0 < (TabManager.closeTab s.tm tabId ca).2.tabs.length := by
          rcases Nat.eq_zero_or_pos (TabManager.closeTab s.tm tabId ca).2.tabs.length
            with h0 | h0
          · exact absurd (by simpa [List.isEmpty_iff_length_eq_zero] using h0) hemp
          · exact h0
        cases hga : TabManager.getActiveTab (TabManager.closeTab s.tm tabId ca).2 with
        | none =>
            exact ⟨hnz, fun h1 => by omega⟩
        | some newTab =>
            dsimp only
            rw [tm_restoreEditorState, tabs_length_updateEditorContent]
            exact ⟨hnz, fun h1 => by omega⟩
    · rw [if_neg hw]
      have hne1 : s.tm.tabs.length ≠ 1 := by
        intro h1
        obtain ⟨a, ha⟩ := List.length_eq_one.mp h1
        have ht0a : t₀ = a := by
          rw [ha] at ht₀
          exact List.mem_singleton.mp ht₀
        exact hw (TMcloseTab_singleton_was_active t₀ s.tm tabId ca
          (ht0a ▸ ha) hact hct)
      refine ⟨?_, fun h1 => absurd h1 hne1⟩
      dsimp only
      omega

/-- A store holding a single modified tab, displayed in the editor. -/
def singleDirtyState : AppState :=
  { tm := { tabs := [{ id := 5, name := "x.c", path := some "x.c"
                       content := "int main;", savedContent := ""
                       modified := true }]
            activeTabId := some 5, nextTabId := 6 }
    editor := { doc := "int main;", cursor := 2, scroll := 0 } }

theorem closeTab_store_never_empty_witness :
    (∃ t ∈ singleDirtyState.tm.tabs,
       singleDirtyState.tm.activeTabId = some t.id) ∧
    (1 ≤ (EditorManager.closeTab singleDirtyState 5 true).tm.tabs.length ∧
     (singleDirtyState.tm.tabs.length = 1 →
       (EditorManager.closeTab singleDirtyState 5 true).tm.tabs.length = 1)) :=
  ⟨by decide, closeTab_store_never_empty singleDirtyState 5 true (by decide)⟩


/-! ## Claims about the switch round trip -/

theorem isSome_find?_updateFirst (f : Tab → Tab) (tabId : Nat)
    (ts : List Tab) (hpres : ∀ t, (f t).id = t.id) :
    ((TabManager.updateFirst f tabId ts).find? (fun t => t.id == tabId)).isSome =
      (ts.find? (fun t => t.id == tabId)).isSome := by
  rw [find?_updateFirst_self f tabId ts hpres]
  cases ts.find? (fun t => t.id == tabId) <;> rfl

theorem findTabById_id (s : TabManagerState) (a : Nat) (t : Tab)
    (h : TabManager.findTabById s a = some t) : t.id = a := by
  have := List.find?_some h
  simpa using this

theorem editor_doc_restoreEditorState (s : AppState) (tabId : Nat) :
    (EditorManager.restoreEditorState s tabId).editor.doc = s.editor.doc := by
  unfold EditorManager.restoreEditorState
  cases h : TabManager.findTabById s.tm tabId with
  | none => rfl
  | some tab =>
      cases hc : tab.cursorPosition <;> cases hs : tab.scrollTop <;>
        simp [hc, hs]

theorem restoreEditorState_recorded (s : AppState) (tabId : Nat) (tab : Tab)
    (cp st : Nat)
    (hfind : TabManager.findTabById s.tm tabId = some tab)
    (hcp : tab.cursorPosition = some cp) (hst : tab.scrollTop = some st) :
    (EditorManager.restoreEditorState s tabId).editor.cursor =
      min cp s.editor.doc.length ∧
    (EditorManager.restoreEditorState s tabId).editor.scroll = st := by
  unfold EditorManager.restoreEditorState
  rw [hfind]
  simp [hcp, hst]

theorem getActiveTab_eq (s : TabManagerState) (a : Nat) (t : Tab)
    (hact : s.activeTabId = some a)
    (hfind : TabManager.findTabById s a = some t) :
    TabManager.getActiveTab s = some t := by
  unfold TabManager.getActiveTab
  simp only [hact]
  exact hfind

theorem saveEditorState_eq (s : AppState) (a : Nat) (t : Tab)
    (hact : s.tm.activeTabId = some a)
    (hfind : TabManager.findTabById s.tm a = some t) :
    EditorManager.saveEditorState s =
      { tm := { tabs := TabManager.updateFirst (fun u => { u with cursorPosition := some s.editor.cursor, scrollTop := some s.editor.scroll }) a s.tm.tabs, activeTabId := s.tm.activeTabId, nextTabId := s.tm.nextTabId }, editor := s.editor } := by
  have hid : t.id = a := findTabById_id _ _ _ hfind
  have hga := getActiveTab_eq s.tm a t hact hfind
  unfold EditorManager.saveEditorState
  rw [hga]
  dsimp only
  unfold TabManager.updateTabEditorState
  rw [hid]

theorem handleContentChange_eq (s : AppState) (b : Nat) (u : Tab)
    (hact : s.tm.activeTabId = some b)
    (hfind : TabManager.findTabById s.tm b = some u) :
    EditorManager.handleContentChange s =
      { s with tm := TabManager.updateTabContent s.tm b s.editor.doc } := by
  have hid : u.id = b := findTabById_id _ _ _ hfind
  have hga := getActiveTab_eq s.tm b u hact hfind
  unfold EditorManager.handleContentChange
  rw [hga]
  dsimp only
  rw [hid]

theorem handleContentChange_none (s : AppState)
    (h : TabManager.getActiveTab s.tm = none) :
    EditorManager.handleContentChange s = s := by
  unfold EditorManager.handleContentChange
  rw [h]

theorem getActiveTab_none (s : TabManagerState) (b : Nat)
    (hact : s.activeTabId = some b)
    (hfind : TabManager.findTabById s b = none) :
    TabManager.getActiveTab s = none := by
  unfold TabManager.getActiveTab
  simp only [hact]
  exact hfind

theorem handleContentChange_tm (s : AppState) (b : Nat)
    (hact : s.tm.activeTabId = some b) :
    (EditorManager.handleContentChange s).tm.activeTabId = some b ∧
    (∀ j, j ≠ b →
      TabManager.findTabById (EditorManager.handleContentChange s).tm j =
        TabManager.findTabById s.tm j) ∧
    (TabManager.findTabById (EditorManager.handleContentChange s).tm b).isSome =
      (TabManager.findTabById s.tm b).isSome := by
  cases hfb : TabManager.findTabById s.tm b with
  | none =>
      rw [handleContentChange_none s (getActiveTab_none s.tm b hact hfb)]
      exact ⟨hact, fun j _ => rfl, by rw [hfb]⟩
  | some u =>
      rw [handleContentChange_eq s b u hact hfb]
      refine ⟨hact, ?_, ?_⟩
      · intro j hj
        exact find?_updateFirst_ne _ _ _ _ (fun t => rfl) hj
      · refine Eq.trans (isSome_find?_updateFirst _ _ _ (fun t => rfl)) ?_
        exact congrArg Option.isSome hfb

theorem editorEdit_tm (s : AppState) (b : Nat) (nd : String) (nc : Nat)
    (hact : s.tm.activeTabId = some b) :
    (EditorManager.editorEdit s nd nc).tm.activeTabId = some b ∧
    (∀ j, j ≠ b →
      TabManager.findTabById (EditorManager.editorEdit s nd nc).tm j =
        TabManager.findTabById s.tm j) ∧
    (TabManager.findTabById (EditorManager.editorEdit s nd nc).tm b).isSome =
      (TabManager.findTabById s.tm b).isSome :=
  handleContentChange_tm
    { s with editor := { doc := nd, cursor := min nc nd.length
                         scroll := s.editor.scroll } } b hact

theorem applyEdits_facts (edits : List (String × Nat)) (s : AppState)
    (b j : Nat) (hact : s.tm.activeTabId = some b) (hne : j ≠ b) :
    (EditorManager.applyEdits s edits).tm.activeTabId = some b ∧
    TabManager.findTabById (EditorManager.applyEdits s edits).tm j =
      TabManager.findTabById s.tm j ∧
    (TabManager.findTabById (EditorManager.applyEdits s edits).tm b).isSome =
      (TabManager.findTabById s.tm b).isSome := by
  induction edits generalizing s with
  | nil => exact ⟨hact, rfl, rfl⟩
  | cons e es ih =>
      have hstep := editorEdit_tm s b e.1 e.2 hact
      have happ : EditorManager.applyEdits s (e :: es) =
          EditorManager.applyEdits (EditorManager.editorEdit s e.1 e.2) es := rfl
      rw [happ]
      obtain ⟨h1, h2, h3⟩ := ih (EditorManager.editorEdit s e.1 e.2) hstep.1
      exact ⟨h1, by rw [h2, hstep.2.1 j hne], by rw [h3, hstep.2.2]⟩

theorem switchToTab_nonactive (s : AppState) (tid a : Nat) (t tab : Tab)
    (hact : s.tm.activeTabId = some a)
    (hfa : TabManager.findTabById s.tm a = some t)
    (hne : tid ≠ a)
    (hft : TabManager.findTabById s.tm tid = some tab) :
    (EditorManager.switchToTab s tid).tm.activeTabId = some tid ∧
    (EditorManager.switchToTab s tid).editor.doc = tab.content ∧
    (TabManager.findTabById (EditorManager.switchToTab s tid).tm tid).isSome = true ∧
    TabManager.findTabById (EditorManager.switchToTab s tid).tm a =
      some { t with cursorPosition := some s.editor.cursor, scrollTop := some s.editor.scroll } ∧
    (∀ cp st, tab.cursorPosition = some cp → tab.scrollTop = some st →
      (EditorManager.switchToTab s tid).editor.cursor = min cp tab.content.length ∧
      (EditorManager.switchToTab s tid).editor.scroll = st) := by
  have hsave := saveEditorState_eq s a t hact hfa
  have hrec : TabManager.findTabById { tabs := TabManager.updateFirst (fun u => { u with cursorPosition := some s.editor.cursor, scrollTop := some s.editor.scroll }) a s.tm.tabs, activeTabId := s.tm.activeTabId, nextTabId := s.tm.nextTabId } tid = some tab := by
    refine Eq.trans ?_ hft
    exact find?_updateFirst_ne _ _ _ _ (by intro u; rfl) hne
  have hrec2 : TabManager.findTabById { tabs := TabManager.updateFirst (fun u => { u with cursorPosition := some s.editor.cursor, scrollTop := some s.editor.scroll }) a s.tm.tabs, activeTabId := some tid, nextTabId := s.tm.nextTabId } tid = some tab := hrec
  have hmain : EditorManager.switchToTab s tid =
      EditorManager.restoreEditorState
        { tm := { tabs := TabManager.updateFirst (fun u => { u with content := tab.content, modified := decide (tab.content ≠ u.savedContent) }) tid (TabManager.updateFirst (fun u => { u with cursorPosition := some s.editor.cursor, scrollTop := some s.editor.scroll }) a s.tm.tabs), activeTabId := some tid, nextTabId := s.tm.nextTabId }
          editor := { doc := tab.content, cursor := min s.editor.cursor tab.content.length, scroll := s.editor.scroll } } tid := by
    unfold EditorManager.switchToTab
    rw [hsave]
    dsimp only
    unfold TabManager.switchToTab
    rw [hrec]
    dsimp only
    rw [if_neg (show ¬(true = false) from fun h => Bool.noConfusion h)]
    rw [getActiveTab_eq _ tid tab rfl hrec2]
    dsimp only
    unfold EditorManager.updateEditorContent
    rw [handleContentChange_eq _ tid tab rfl hrec2]
    unfold TabManager.updateTabContent
    dsimp only
  refine ⟨?_, ?_, ?_, ?_, ?_⟩
  · rw [hmain, tm_restoreEditorState]
  · rw [hmain, editor_doc_restoreEditorState]
  · rw [hmain, tm_restoreEditorState]
    refine Eq.trans (isSome_find?_updateFirst _ _ _ (by intro u; rfl)) ?_
    exact congrArg Option.isSome hrec2
  · rw [hmain, tm_restoreEditorState]
    refine Eq.trans (find?_updateFirst_ne _ _ _ _ (by intro u; rfl) (Ne.symm hne)) ?_
    refine Eq.trans (find?_updateFirst_self _ _ _ (by intro u; rfl)) ?_
    rw [show List.find? (fun u => u.id == a) s.tm.tabs = some t from hfa]
    rfl
  · intro cp st hcp hst
    rw [hmain]
    have hfind3 : TabManager.findTabById { tabs := TabManager.updateFirst (fun u => { u with content := tab.content, modified := decide (tab.content ≠ u.savedContent) }) tid (TabManager.updateFirst (fun u => { u with cursorPosition := some s.editor.cursor, scrollTop := some s.editor.scroll }) a s.tm.tabs), activeTabId := some tid, nextTabId := s.tm.nextTabId } tid =
        some { tab with content := tab.content, modified := decide (tab.content ≠ tab.savedContent) } := by
      refine Eq.trans (find?_updateFirst_self _ _ _ (by intro u; rfl)) ?_
      rw [show List.find? (fun u => u.id == tid) (TabManager.updateFirst (fun u => { u with cursorPosition := some s.editor.cursor, scrollTop := some s.editor.scroll }) a s.tm.tabs) = some tab from hrec]
      rfl
    exact restoreEditorState_recorded _ tid _ cp st hfind3 hcp hst

/-- C2: switching from document A to document B, editing B arbitrarily,
and switching back to A restores A's text, cursor and scroll byte for
byte: the switch-away step records A's view state before B is loaded, and
only the active document is touched by edit events.  The hypotheses are
the reachable invariants that A is the active document, its stored
content mirrors the editor, and the editor cursor lies within the
document. -/
theorem switch_roundtrip (s : AppState) (aid bid : Nat) (tabA tabB : Tab)
    (edits : List (String × Nat))
    (hA : TabManager.findTabById s.tm aid = some tabA)
    (hB : TabManager.findTabById s.tm bid = some tabB)
    (hact : s.tm.activeTabId = some aid)
    (hne : aid ≠ bid)
    (hsync : tabA.content = s.editor.doc)
    (hcur : s.editor.cursor ≤ s.editor.doc.length) :
    (EditorManager.switchToTab
        (EditorManager.applyEdits (EditorManager.switchToTab s bid) edits)
        aid).editor.doc = s.editor.doc ∧
    (EditorManager.switchToTab
        (EditorManager.applyEdits (EditorManager.switchToTab s bid) edits)
        aid).editor.cursor = s.editor.cursor ∧
    (EditorManager.switchToTab
        (EditorManager.applyEdits (EditorManager.switchToTab s bid) edits)
        aid).editor.scroll = s.editor.scroll := by
  obtain ⟨hb_act, _, hb_some, hb_findA, _⟩ :=
    switchToTab_nonactive s bid aid tabA tabB hact hA (Ne.symm hne) hB
  obtain ⟨he_act, he_findA, he_someB⟩ :=
    applyEdits_facts edits (EditorManager.switchToTab s bid) bid aid hb_act hne
  have hfindA2 : TabManager.findTabById
      (EditorManager.applyEdits (EditorManager.switchToTab s bid) edits).tm aid =
      some { tabA with cursorPosition := some s.editor.cursor
                       scrollTop := some s.editor.scroll } :=
    he_findA.trans hb_findA
  have hsome2 : (TabManager.findTabById
      (EditorManager.applyEdits (EditorManager.switchToTab s bid) edits).tm
      bid).isSome = true := he_someB.trans hb_some
  obtain ⟨tabB2, hB2⟩ := Option.isSome_iff_exists.mp hsome2
  obtain ⟨_, hdoc, _, _, hrest⟩ :=
    switchToTab_nonactive
      (EditorManager.applyEdits (EditorManager.switchToTab s bid) edits)
      aid bid tabB2
      { tabA with cursorPosition := some s.editor.cursor
                  scrollTop := some s.editor.scroll }
      he_act hB2 hne hfindA2
  obtain ⟨hc, hsc⟩ := hrest s.editor.cursor s.editor.scroll rfl rfl
  refine ⟨?_, ?_, ?_⟩
  · rw [hdoc]
    exact hsync
  · rw [hc]
    show min s.editor.cursor tabA.content.length = s.editor.cursor
    rw [hsync]
    exact min_eq_left hcur
  · exact hsc

/-- Two clean documents; the first (id 1) is active and shown in the
editor with cursor 3 and scroll 11. -/
def roundTripState : AppState :=
  { tm := { tabs := [{ id := 1, name := "a.py", path := some "a.py"
                       content := "alpha", savedContent := "alpha"
                       modified := false },
                     { id := 2, name := "b.py", path := some "b.py"
                       content := "beta", savedContent := "beta"
                       modified := false }]
            activeTabId := some 1, nextTabId := 3 }
    editor := { doc := "alpha", cursor := 3, scroll := 11 } }

theorem switch_roundtrip_witness :
    (EditorManager.switchToTab
        (EditorManager.applyEdits (EditorManager.switchToTab roundTripState 2)
          [("edited b", 8)]) 1).editor.doc = roundTripState.editor.doc ∧
    (EditorManager.switchToTab
        (EditorManager.applyEdits (EditorManager.switchToTab roundTripState 2)
          [("edited b", 8)]) 1).editor.cursor = roundTripState.editor.cursor ∧
    (EditorManager.switchToTab
        (EditorManager.applyEdits (EditorManager.switchToTab roundTripState 2)
          [("edited b", 8)]) 1).editor.scroll = roundTripState.editor.scroll :=
  switch_roundtrip roundTripState 1 2
    { id := 1, name := "a.py", path := some "a.py", content := "alpha"
      savedContent := "alpha", modified := false }
    { id := 2, name := "b.py", path := some "b.py", content := "beta"
      savedContent := "beta", modified := false }
    [("edited b", 8)]
    (by decide) (by decide) (by decide) (by decide) (by decide) (by decide)

end NotepadSharp
